import Mathlib

/-!
Shallow embedding of the plink_LED_gantry repository (G-code parser,
target state store, motion control loop, LED peripheral handler) and
proofs of the specification claims about it.

Strings are modelled as `List Char`; Python string primitives
(`str.strip`, `str.upper`, `str.split`) are translated for the ASCII
character range the command surface uses (spec §6: ASCII input).
Numeric values are modelled over `ℚ` (exact arithmetic in place of
Python floats); `math.pi` is an abstract positive rational parameter
where it appears.  Python builtins `float(...)`/`int(...)` applied to
strings are external library calls, modelled as `Option`-returning
parse parameters (`none` = the builtin raises `ValueError`).
-/

namespace Gantry

/-- Python whitespace test for the ASCII range: the characters
`str.strip()` and no-argument `str.split()` treat as separators. -/
def pyWS (c : Char) : Bool :=
  c = ' ' || c = '\t' || c = '\n' || c = '\r' || c = '\x0b' || c = '\x0c'

/-- Lowercase-to-uppercase table for the ASCII letters. -/
def lowerUpper : List (Char × Char) :=
  [('a','A'), ('b','B'), ('c','C'), ('d','D'), ('e','E'), ('f','F'),
   ('g','G'), ('h','H'), ('i','I'), ('j','J'), ('k','K'), ('l','L'),
   ('m','M'), ('n','N'), ('o','O'), ('p','P'), ('q','Q'), ('r','R'),
   ('s','S'), ('t','T'), ('u','U'), ('v','V'), ('w','W'), ('x','X'),
   ('y','Y'), ('z','Z')]

/-- Python `str.upper()` on one ASCII character. -/
def upChar (c : Char) : Char :=
  match lowerUpper.find? (fun p => p.1 == c) with
  | some p => p.2
  | none => c

/-- Python `str.upper()` on a string. -/
def upperL (l : List Char) : List Char := l.map upChar

/-- Python `str.strip()`: drop leading and trailing whitespace. -/
def stripL (l : List Char) : List Char :=
  ((l.dropWhile pyWS).reverse.dropWhile pyWS).reverse

/-- Middle-zero collapse from `GCodeParser._clean_command`: a
three-character command with `'0'` in the middle drops that zero. -/
def collapse0 : List Char → List Char
  | [a, b, c] => if b = '0' then [a, c] else [a, b, c]
  | l => l

/-- Embedding of `GCodeParser._clean_command` (gcode_parser.py lines
193-212): `command.strip().upper()`, then collapse a middle zero of a
three-character command. -/
def clean_command (l : List Char) : List Char :=
  collapse0 (upperL (stripL l))

/-- Python `line.split(" ")`: split at every single space character,
keeping empty segments (so `"".split(" ") = [""]`). -/
def splitSpace : List Char → List (List Char)
  | [] => [[]]
  | c :: rest =>
    if c = ' ' then [] :: splitSpace rest
    else
      match splitSpace rest with
      | [] => [[c]]
      | t :: ts => (c :: t) :: ts

/-- Inverse image of `splitSpace` used to state the tokenization
theorem: join tokens with single spaces. -/
def joinSpace : List (List Char) → List Char
  | [] => []
  | [t] => t
  | t :: ts => t ++ ' ' :: joinSpace ts

/-- Python no-argument `str.split()`: split on runs of whitespace,
dropping empty tokens (so `"".split() = []`).  Used by
`update_target` in the interactive scripts; also the reading "split on
whitespace" that the spec's tokenization sentence describes. -/
def pySplitWS (l : List Char) : List (List Char) :=
  (l.foldr (fun c acc =>
    if pyWS c then [] :: acc
    else
      match acc with
      | [] => [[c]]
      | t :: ts => (c :: t) :: ts) []).filter (fun t => !t.isEmpty)

/-- Embedding of `GCodeParser._extract_command` (gcode_parser.py lines
214-226): clean the first `split(" ")` segment. -/
def extract_command (line : List Char) : List Char :=
  clean_command ((splitSpace line).headD [])

/-- One loop iteration of `GCodeParser._extract_params`: strip and
upper-case the token, skip it if empty, else bind its first character
to the remaining characters in the dictionary (modelled as a lookup
function). -/
def procParam (d : Char → Option (List Char)) (tok : List Char) :
    Char → Option (List Char) :=
  match upperL (stripL tok) with
  | [] => d
  | k :: v => fun q => if q = k then some v else d q

/-- Embedding of `GCodeParser._extract_params` (gcode_parser.py lines
228-259): the dictionary built from the `split(" ")` segments after the
first. -/
def extract_params (line : List Char) : Char → Option (List Char) :=
  ((splitSpace line).tail).foldl procParam (fun _ => none)

/-- Test from the spec's words: a token carries key `k` when its
trimmed, upper-cased form is non-empty and starts with `k`. -/
def hasKey (k : Char) (t : List Char) : Bool :=
  match upperL (stripL t) with
  | [] => false
  | k' :: _ => k' == k

/-- Modelled from the spec's words ("each remaining non-empty token is
a parameter whose first character (after trimming/upper-casing) is the
key and whose remaining characters are the raw value"; "last occurrence
for a duplicated key wins"): the value of the last token carrying key
`k`. -/
def lastVal (toks : List (List Char)) (k : Char) : Option (List Char) :=
  (toks.reverse.find? (hasKey k)).map (fun t => (upperL (stripL t)).tail)

/-- Python exception kinds raised by `register_callback`. -/
inductive PyErr where
  | valueError
  | indexError
deriving DecidableEq

/-- Embedding of `GCodeParser.register_callback` (gcode_parser.py lines
132-153).  The registry is modelled by its list of registered command
keys (callback values are opaque); re-registration keeps the key list
unchanged, as a dict re-assignment would.  `Except.error` models a
raised exception, which in the source occurs before the dict
assignment, leaving the caller's registry unmutated:
`Except.error .indexError` is Python's IndexError from `command[0]` on
an empty normalized command, `Except.error .valueError` the explicit
`raise ValueError` for a command whose first character is neither `'M'`
nor `'G'`. -/
def register_callback (callbacks : List (List Char)) (command : List Char) :
    Except PyErr (List (List Char)) :=
  match clean_command command with
  | [] => .error .indexError
  | ch :: rest =>
    if ch ≠ 'M' ∧ ch ≠ 'G' then .error .valueError
    else .ok (if (ch :: rest) ∈ callbacks then callbacks
              else callbacks ++ [ch :: rest])

/-- Lead of the screw in mm per revolution (`LEAD_MM = 8.0` in
main.py and manual_gantry_control.py). -/
def LEAD_MM : ℚ := 8

/-- Embedding of `mm_to_radians` (manual_gantry_control.py lines 23-24,
main.py lines 21-22).  `math.pi` is passed as the abstract parameter
`pi`, since exact arithmetic over `ℚ` replaces floats. -/
def mm_to_radians (pi mm : ℚ) : ℚ := mm * 2 * pi / LEAD_MM

/-- Embedding of `radians_to_mm` (manual_gantry_control.py lines
26-27); main.py inlines the same formula as the `params.get` default in
`handle_G1`. -/
def radians_to_mm (pi rad : ℚ) : ℚ := rad * LEAD_MM / (2 * pi)

/-- The two axis-group position targets `pos_target_X`,
`pos_target_Y` (radians). -/
structure Targets where
  x : ℚ
  y : ℚ
deriving DecidableEq

/-- Embedding of one loop iteration of `update_target`
(manual_gantry_control.py lines 29-43) on one input line.  Python
`float(...)` is the external parameter `parse` (`none` = ValueError).
The source assigns `pos_target_X` from the first token before parsing
the second token, inside one try block whose handler only prints, so a
ValueError on the second token leaves the new X but the old Y. -/
def update_target (parse : List Char → Option ℚ) (pi : ℚ)
    (line : List Char) (st : Targets) : Targets :=
  match pySplitWS line with
  | [] => st
  | [t0] =>
    match parse t0 with
    | none => st
    | some m => { st with x := mm_to_radians pi m }
  | t0 :: t1 :: _ =>
    match parse t0 with
    | none => st
    | some m1 =>
      match parse t1 with
      | none => { st with x := mm_to_radians pi m1 }
      | some m2 => { x := mm_to_radians pi m1, y := mm_to_radians pi m2 }

/-- Embedding of `handle_G1` (main.py lines 81-92).  `px`/`py` are the
`"X"`/`"Y"` entries of the parameter dict (`none` = key absent, in
which case the `params.get` default — the current target converted to
millimeters — is used and `float` of it cannot fail).  The second
component is `true` when a `float(...)` call raised ValueError; both
conversions happen before the locked assignment, so on a raise the
returned target state is the unchanged `st`. -/
def handle_G1 (parse : List Char → Option ℚ) (pi : ℚ)
    (px py : Option (List Char)) (st : Targets) : Targets × Bool :=
  let xv : Option ℚ := match px with
    | some s => parse s
    | none => some (radians_to_mm pi st.x)
  match xv with
  | none => (st, true)
  | some x =>
    let yv : Option ℚ := match py with
      | some s => parse s
      | none => some (radians_to_mm pi st.y)
    match yv with
    | none => (st, true)
    | some y => ({ x := mm_to_radians pi x, y := mm_to_radians pi y }, false)

/-- Restriction of Python `float(...)` to the two tokens of the
counterexample line: `float("5") = 5.0` and `float("abc")` raises
ValueError. -/
def parseEx : List Char → Option ℚ :=
  fun t => if t = ['5'] then some 5 else none

/-- Position-control proportional gain for the X axis group
(`Kp_pos = 5` in manual_gantry_control.py line 7 and main.py line 9). -/
def Kp_pos : ℚ := 5

/-- Position-control proportional gain for the Y axis group
(`Kp_pos_Y = 5` in manual_gantry_control.py line 8 and main.py
line 10). -/
def Kp_pos_Y : ℚ := 5

/-- Dead-band from manual_gantry_control.py lines 97-103: a position
error of magnitude strictly below 0.5 is replaced by 0. -/
def deadband (e : ℚ) : ℚ := if |e| < 1/2 then 0 else e

/-- Velocity commands issued to the three physical motors (X1, X2, Y)
in one tick. -/
structure VelCmds where
  v1 : ℚ
  v2 : ℚ
  v3 : ℚ
deriving DecidableEq

/-- Embedding of one iteration of the manual_gantry_control.py control
loop body (lines 87-112): per-motor errors against the two axis-group
targets, the 0.5 rad dead-band, then proportional velocity commands. -/
def manualTick (tX tY c1 c2 c3 : ℚ) : VelCmds :=
  let e1 := deadband (tX - c1)
  let e2 := deadband (tX - c2)
  let e3 := deadband (tY - c3)
  ⟨Kp_pos * e1, Kp_pos * e2, Kp_pos_Y * e3⟩

/-- Embedding of one iteration of main.py's `control_loop` body (lines
59-78): proportional velocity commands with no dead-band. -/
def mainTick (tX tY c1 c2 c3 : ℚ) : VelCmds :=
  ⟨Kp_pos * (tX - c1), Kp_pos * (tX - c2), Kp_pos_Y * (tY - c3)⟩

/-- Initial values of `pos_target_X` and `pos_target_Y` in main.py
lines 14-15; no later statement in main.py assigns the recorded
initial positions to them (`control_loop` ignores its
`initial_positions` argument). -/
def mainInitialTargets : Targets := ⟨0, 0⟩

/-- NeoPixel strip state: the staged buffer written by item assignment
and `fill`, the committed (visible) LED state, and the `auto_write`
construction flag.  Writes are not visible until committed (spec §6);
with `auto_write=False` only `show()` commits. -/
structure PixelStrip where
  staged : List (ℤ × ℤ × ℤ)
  committed : List (ℤ × ℤ × ℤ)
  autoWrite : Bool
deriving DecidableEq

/-- Embedding of `setup_pixels` (control_neopixel.py lines 5-10): a
strip of `n` LEDs created with `auto_write=False`, all LEDs off. -/
def setup_pixels (n : ℕ) : PixelStrip :=
  { staged := List.replicate n (0, 0, 0)
    committed := List.replicate n (0, 0, 0)
    autoWrite := false }

/-- NeoPixel item assignment `pixels[i] = c`: stage the write; with
`auto_write` the buffer becomes visible immediately. -/
def pixelSet (s : PixelStrip) (i : ℕ) (c : ℤ × ℤ × ℤ) : PixelStrip :=
  let st := s.staged.set i c
  { s with staged := st, committed := if s.autoWrite then st else s.committed }

/-- NeoPixel `pixels.fill(c)`. -/
def pixelFill (s : PixelStrip) (c : ℤ × ℤ × ℤ) : PixelStrip :=
  let st := List.replicate s.staged.length c
  { s with staged := st, committed := if s.autoWrite then st else s.committed }

/-- NeoPixel `pixels.show()`: commit the staged buffer.  `handle_M150`
never calls it. -/
def pixelShow (s : PixelStrip) : PixelStrip :=
  { s with committed := s.staged }

/-- Python `int(q)` on a rational magnitude: truncation toward zero,
used for `int(r * brightness)`. -/
def pyInt (q : ℚ) : ℤ := q.num.tdiv (q.den : ℤ)

/-- Embedding of `safe_int` inside `handle_M150` (main.py lines
96-101), combined with the `params.get(key, default)` lookup at its
call sites: a missing key yields the get-default with no warning
(Python `int` of that int default cannot fail); a present but
unparsable value yields `safe_int`'s own default 0 plus a printed
warning.  Python `int(...)` on strings is the external parameter
`parseI` (`none` = ValueError/TypeError). -/
def safe_int (parseI : List Char → Option ℤ) (v : Option (List Char))
    (getDefault : ℤ) : ℤ × Bool :=
  match v with
  | none => (getDefault, false)
  | some s =>
    match parseI s with
    | some n => (n, false)
    | none => (0, true)

/-- Embedding of `safe_float` inside `handle_M150` (main.py lines
103-108): as `safe_int` with failure default 1.0. -/
def safe_float (parseF : List Char → Option ℚ) (v : Option (List Char))
    (getDefault : ℚ) : ℚ × Bool :=
  match v with
  | none => (getDefault, false)
  | some s =>
    match parseF s with
    | some q => (q, false)
    | none => (1, true)

/-- Embedding of `handle_M150` (main.py lines 94-126).  `pP`…`pI` are
the `"P"`, `"R"`, `"G"`, `"B"`, `"I"` entries of the parameter dict
(`none` = absent).  The Bool output records whether any warning was
printed (an invalid parameter value or an out-of-range LED index). -/
def handle_M150 (parseI : List Char → Option ℤ) (parseF : List Char → Option ℚ)
    (pP pR pG pB pI : Option (List Char)) (pixels : PixelStrip) :
    PixelStrip × Bool :=
  let li := safe_int parseI pP 0
  let r := safe_int parseI pR 0
  let g := safe_int parseI pG 0
  let b := safe_int parseI pB 0
  let br := safe_float parseF pI 1
  let warned := li.2 || r.2 || g.2 || b.2 || br.2
  let color : ℤ × ℤ × ℤ :=
    (pyInt ((r.1 : ℚ) * br.1), pyInt ((g.1 : ℚ) * br.1), pyInt ((b.1 : ℚ) * br.1))
  if li.1 = 0 then (pixelFill pixels color, warned)
  else if 1 ≤ li.1 ∧ li.1 < 8 then
    (pixelSet pixels (li.1 - 1).toNat color, warned)
  else (pixels, true)

/-- Target store tagged with the id of the logical command that last
wrote each axis group (id 0 = the initialization write). -/
structure TStore where
  x : ℚ
  y : ℚ
  xid : ℕ
  yid : ℕ
deriving DecidableEq

/-- Atomic events under main.py's locking discipline: `handle_G1`
(lines 88-90) assigns both targets inside one `with pos_lock` block and
`control_loop` (lines 60-62) reads both inside one block; the lock
serializes the blocks, so each is one atomic step of the interleaving
semantics. -/
inductive LockedOp where
  | write (wid : ℕ) (x y : ℚ)
  | read
deriving DecidableEq

/-- Step of the locked semantics: a write replaces both targets (and
both tags); a read emits the pair of tags it observed. -/
def lockedStep : TStore → LockedOp → TStore × Option (ℕ × ℕ)
  | _, .write w x y => (⟨x, y, w, w⟩, none)
  | s, .read => (s, some (s.xid, s.yid))

/-- Run a trace of locked critical sections, collecting the snapshot
tags of every read. -/
def lockedRun : TStore → List LockedOp → List (ℕ × ℕ)
  | _, [] => []
  | s, op :: rest =>
    match lockedStep s op with
    | (s', some p) => p :: lockedRun s' rest
    | (s', none) => lockedRun s' rest

/-- Fine-grained events of 03_three_motor.py, which takes no lock:
`update_target` (lines 27-34) assigns `pos_target_X` and
`pos_target_Y` in two separate statements, and the control loop reads
the variables in separate statements (lines 88-90), so the four
accesses interleave freely. -/
inductive UnlockedOp where
  | writeX (wid : ℕ) (x : ℚ)
  | writeY (wid : ℕ) (y : ℚ)
  | readX
  | readY
deriving DecidableEq

/-- Step of the unlocked semantics.  The second state component is the
reader's local register: `readX` latches the X tag, `readY` pairs it
with the Y tag it now sees, emitting the reader's snapshot. -/
def unlockedStep : TStore × Option ℕ → UnlockedOp →
    (TStore × Option ℕ) × Option (ℕ × ℕ)
  | (s, r), .writeX w x => ((⟨x, s.y, w, s.yid⟩, r), none)
  | (s, r), .writeY w y => ((⟨s.x, y, s.xid, w⟩, r), none)
  | (s, _), .readX => ((s, some s.xid), none)
  | (s, r), .readY =>
    ((s, r), match r with
             | some xi => some (xi, s.yid)
             | none => none)

/-- Run a trace of unlocked accesses, collecting every completed read
pair. -/
def unlockedRun : TStore × Option ℕ → List UnlockedOp → List (ℕ × ℕ)
  | _, [] => []
  | s, op :: rest =>
    match unlockedStep s op with
    | (s', some p) => p :: unlockedRun s' rest
    | (s', none) => unlockedRun s' rest

theorem lowerUpper_snd_fixed :
    ∀ p ∈ lowerUpper, lowerUpper.find? (fun q => q.1 == p.2) = none := by
  decide

theorem lowerUpper_not_ws :
    ∀ p ∈ lowerUpper, pyWS p.1 = false ∧ pyWS p.2 = false := by
  decide

theorem upChar_idem (c : Char) : upChar (upChar c) = upChar c := by
  cases h : lowerUpper.find? (fun p => p.1 == c) with
  | none =>
    have hc : upChar c = c := by unfold upChar; rw [h]
    rw [hc]
    exact hc
  | some p =>
    have hc : upChar c = p.2 := by unfold upChar; rw [h]
    have hp : p ∈ lowerUpper := List.mem_of_find?_eq_some h
    have h2 : upChar p.2 = p.2 := by
      unfold upChar; rw [lowerUpper_snd_fixed p hp]
    rw [hc, h2]

theorem pyWS_upChar (c : Char) : pyWS (upChar c) = pyWS c := by
  cases h : lowerUpper.find? (fun p => p.1 == c) with
  | none =>
    have hc : upChar c = c := by unfold upChar; rw [h]
    rw [hc]
  | some p =>
    have hc : upChar c = p.2 := by unfold upChar; rw [h]
    have hp : p ∈ lowerUpper := List.mem_of_find?_eq_some h
    have hfst : p.1 = c := by
      have := List.find?_some h
      simpa using this
    subst hfst
    rw [hc, (lowerUpper_not_ws p hp).2, (lowerUpper_not_ws p hp).1]

theorem upperL_idem (l : List Char) : upperL (upperL l) = upperL l := by
  simp [upperL, List.map_map, Function.comp_def, upChar_idem]

theorem dropWhile_self (p : Char → Bool) (l : List Char) :
    (l.dropWhile p).dropWhile p = l.dropWhile p := by
  cases h : l.dropWhile p with
  | nil => rfl
  | cons a t =>
    have hx := List.head?_dropWhile_not p l
    rw [h] at hx
    simp only [List.head?_cons] at hx
    exact List.dropWhile_cons_of_neg (by simp [hx])

theorem head?_stripL (l : List Char) (x : Char)
    (h : (stripL l).head? = some x) : pyWS x = false := by
  unfold stripL at h
  rw [List.head?_reverse] at h
  obtain ⟨pre, hpre⟩ :=
    List.dropWhile_suffix (l := (l.dropWhile pyWS).reverse) (p := pyWS)
  have hgl : ((l.dropWhile pyWS).reverse).getLast? = some x := by
    rw [← hpre, List.getLast?_append, h]
    rfl
  rw [List.getLast?_reverse] at hgl
  have hh := List.head?_dropWhile_not pyWS l
  rw [hgl] at hh
  simpa using hh

theorem getLast?_stripL (l : List Char) (x : Char)
    (h : (stripL l).getLast? = some x) : pyWS x = false := by
  unfold stripL at h
  rw [List.getLast?_reverse] at h
  have hh := List.head?_dropWhile_not pyWS (l.dropWhile pyWS).reverse
  rw [h] at hh
  simpa using hh

theorem stripL_eq_self (l : List Char)
    (hh : ∀ x, l.head? = some x → pyWS x = false)
    (hl : ∀ x, l.getLast? = some x → pyWS x = false) : stripL l = l := by
  have h1 : l.dropWhile pyWS = l := by
    cases l with
    | nil => rfl
    | cons a t =>
      have := hh a (by simp)
      simp [List.dropWhile_cons_of_neg, this]
  have h2 : l.reverse.dropWhile pyWS = l.reverse := by
    cases e : l.reverse with
    | nil => simp
    | cons b t =>
      have hb : l.getLast? = some b := by
        rw [← List.head?_reverse, e]; simp
      have := hl b hb
      exact List.dropWhile_cons_of_neg (by simp [this])
  unfold stripL
  rw [h1, h2, List.reverse_reverse]

theorem stripL_upperL (l : List Char) : stripL (upperL l) = upperL (stripL l) := by
  have hf : (pyWS ∘ upChar) = pyWS := funext pyWS_upChar
  unfold stripL upperL
  rw [List.dropWhile_map, hf, ← List.map_reverse, List.dropWhile_map, hf,
    ← List.map_reverse]

theorem stripL_idem (l : List Char) : stripL (stripL l) = stripL l := by
  refine stripL_eq_self _ (fun x h => head?_stripL l x h)
    (fun x h => getLast?_stripL l x h)

theorem head?_upperL (l : List Char) : (upperL l).head? = l.head?.map upChar := by
  simp [upperL]

theorem getLast?_upperL (l : List Char) :
    (upperL l).getLast? = l.getLast?.map upChar := by
  simp [upperL]

theorem collapse0_not_middle_zero (m : List Char)
    (h : ¬(m.length = 3 ∧ m.get? 1 = some '0')) : collapse0 m = m := by
  rcases m with _ | ⟨a, _ | ⟨b, _ | ⟨c, _ | ⟨d, r⟩⟩⟩⟩ <;>
    simp [collapse0] at h ⊢
  intro hb
  exact absurd hb h

theorem clean_command_idem (s : List Char) :
    clean_command (clean_command s) = clean_command s := by
  have h1 : stripL (upperL (stripL s)) = upperL (stripL s) := by
    rw [stripL_upperL, stripL_idem]
  have h2 : upperL (upperL (stripL s)) = upperL (stripL s) := upperL_idem _
  have hgoal : clean_command s = collapse0 (upperL (stripL s)) := rfl
  rw [hgoal]
  generalize hm : upperL (stripL s) = m at h1 h2
  clear hgoal hm
  rcases m with _ | ⟨a, _ | ⟨b, _ | ⟨c, _ | ⟨d, r⟩⟩⟩⟩
  · rfl
  · show clean_command [a] = collapse0 [a]
    unfold clean_command
    rw [h1, h2]
  · show clean_command [a, b] = collapse0 [a, b]
    unfold clean_command
    rw [h1, h2]
  · by_cases hb : b = '0'
    · subst hb
      have hcol : collapse0 [a, '0', c] = [a, c] := by simp [collapse0]
      rw [hcol]
      have hup : upChar a = a ∧ upChar '0' = '0' ∧ upChar c = c := by
        have := h2
        simp [upperL] at this
        exact ⟨this.1, this.2.1, this.2.2⟩
      have hwa : pyWS a = false :=
        head?_stripL [a, '0', c] a (by rw [h1]; rfl)
      have hwc : pyWS c = false :=
        getLast?_stripL [a, '0', c] c (by rw [h1]; simp)
      have hst : stripL [a, c] = [a, c] := by
        refine stripL_eq_self _ ?_ ?_
        · intro x hx; simp at hx; subst hx; exact hwa
        · intro x hx; simp at hx; subst hx; exact hwc
      have hupl : upperL [a, c] = [a, c] := by
        simp [upperL, hup.1, hup.2.2]
      unfold clean_command
      rw [hst, hupl]
      rfl
    · have hcol : collapse0 [a, b, c] = [a, b, c] := by simp [collapse0, hb]
      rw [hcol]
      unfold clean_command
      rw [h1, h2, hcol]
  · show clean_command (a :: b :: c :: d :: r) = collapse0 (a :: b :: c :: d :: r)
    unfold clean_command
    rw [h1, h2]

/-- C5: command normalization (`GCodeParser._clean_command`) is
idempotent for every input string; `"G01"` and `"G1"` both normalize to
`"G1"` and `"M05"` to `"M5"`; and every command whose trimmed,
upper-cased form is not exactly three characters with `'0'` in the
middle position passes through unchanged apart from trimming and
upper-casing. -/
theorem normalization_idempotent :
    (∀ s : List Char, clean_command (clean_command s) = clean_command s) ∧
    clean_command ("G01".toList) = "G1".toList ∧
    clean_command ("G1".toList) = "G1".toList ∧
    clean_command ("M05".toList) = "M5".toList ∧
    (∀ s : List Char,
      ¬((upperL (stripL s)).length = 3 ∧ (upperL (stripL s)).get? 1 = some '0') →
      clean_command s = upperL (stripL s)) := by
  refine ⟨clean_command_idem, by decide, by decide, by decide, ?_⟩
  intro s h
  unfold clean_command
  exact collapse0_not_middle_zero _ h

/-- Witness for the hypothesis-bearing conjunct of
`normalization_idempotent`, at the concrete command `"X10"`. -/
theorem normalization_idempotent_witness :
    clean_command ("X10".toList) = upperL (stripL ("X10".toList)) :=
  normalization_idempotent.2.2.2.2 _ (by decide)

theorem splitSpace_token (t r : List Char) (h : ' ' ∉ t) :
    splitSpace (t ++ ' ' :: r) = t :: splitSpace r := by
  induction t with
  | nil => simp [splitSpace]
  | cons c t' ih =>
    have hc : c ≠ ' ' := fun e => h (e ▸ List.mem_cons_self c t')
    have ht' : ' ' ∉ t' := fun m => h (List.mem_cons_of_mem c m)
    rw [List.cons_append]
    simp only [splitSpace]
    rw [if_neg hc, ih ht']

theorem splitSpace_no_space (t : List Char) (h : ' ' ∉ t) :
    splitSpace t = [t] := by
  induction t with
  | nil => rfl
  | cons c t' ih =>
    have hc : c ≠ ' ' := fun e => h (e ▸ List.mem_cons_self c t')
    have ht' : ' ' ∉ t' := fun m => h (List.mem_cons_of_mem c m)
    simp only [splitSpace]
    rw [if_neg hc, ih ht']

theorem splitSpace_joinSpace (ts : List (List Char))
    (h : ∀ t ∈ ts, ' ' ∉ t) (hne : ts ≠ []) :
    splitSpace (joinSpace ts) = ts := by
  induction ts with
  | nil => exact absurd rfl hne
  | cons t rest ih =>
    cases rest with
    | nil =>
      show splitSpace (joinSpace [t]) = [t]
      exact splitSpace_no_space t (h t (by simp))
    | cons t2 r2 =>
      show splitSpace (t ++ ' ' :: joinSpace (t2 :: r2)) = t :: t2 :: r2
      rw [splitSpace_token t _ (h t (by simp))]
      rw [ih (fun u hu => h u (List.mem_cons_of_mem t hu)) (by simp)]

theorem foldl_procParam (toks : List (List Char))
    (m : Char → Option (List Char)) (k : Char) :
    (toks.foldl procParam m) k = (lastVal toks k).or (m k) := by
  induction toks generalizing m with
  | nil => simp [lastVal]
  | cons t rest ih =>
    rw [List.foldl_cons, ih]
    unfold lastVal
    rw [List.reverse_cons, List.find?_append]
    cases hf : rest.reverse.find? (hasKey k) with
    | some u => simp [Option.or]
    | none =>
      simp only [Option.none_or]
      rcases hu : upperL (stripL t) with _ | ⟨k', v⟩
      · have h1 : procParam m t = m := by unfold procParam; rw [hu]
        have h2 : hasKey k t = false := by unfold hasKey; rw [hu]
        rw [h1]
        simp [List.find?, h2]
      · have h1 : procParam m t = fun q => if q = k' then some v else m q := by
          unfold procParam; rw [hu]
        have h2 : hasKey k t = (k' == k) := by unfold hasKey; rw [hu]
        rw [h1]
        by_cases hk : k = k'
        · subst hk
          simp [List.find?, h2, hu]
        · have hbe : (k' == k) = false := by
            simp only [beq_eq_false_iff_ne, ne_eq]
            exact fun e => hk e.symm
          simp [List.find?, h2, hbe, hk]

/-- C6 (amended): parsing a line splits it at single space characters
(not general whitespace); the first segment, cleaned and normalized, is
the command; each remaining segment that is non-empty after trimming
and upper-casing yields one parameter whose key is its first character
and whose value is the remaining characters; when a key occurs more
than once, the last occurrence's value wins (`lastVal` is the
spec-side description of that parameter map). -/
theorem tokenization (cmd : List Char) (toks : List (List Char))
    (hc : ' ' ∉ cmd) (ht : ∀ t ∈ toks, ' ' ∉ t) :
    extract_command (joinSpace (cmd :: toks)) = clean_command cmd ∧
    ∀ k, extract_params (joinSpace (cmd :: toks)) k = lastVal toks k := by
  have hsplit : splitSpace (joinSpace (cmd :: toks)) = cmd :: toks := by
    refine splitSpace_joinSpace _ ?_ (by simp)
    intro u hu
    rcases List.mem_cons.mp hu with h | h
    · exact h ▸ hc
    · exact ht u h
  constructor
  · unfold extract_command
    rw [hsplit]
    rfl
  · intro k
    unfold extract_params
    rw [hsplit]
    show (toks.foldl procParam (fun _ => none)) k = lastVal toks k
    rw [foldl_procParam]
    simp

/-- Witness for `tokenization` at the line `"G1 X1 X2"`: the duplicated
key `X` resolves to the last occurrence's value. -/
theorem tokenization_witness :
    extract_params (joinSpace ["G1".toList, "X1".toList, "X2".toList]) 'X' =
      lastVal ["X1".toList, "X2".toList] 'X' :=
  (tokenization ("G1".toList) ["X1".toList, "X2".toList]
    (by decide) (by decide)).2 'X'

/-- C6 counterexample: the claim says the line is split on whitespace,
but `_extract_command` splits on the space character only
(`line.split(" ")`).  On the tab-separated line `"G1\tX5"` the first
whitespace token is `"G1"` (so the claim predicts command `"G1"`), yet
the code's command is the whole five-character line. -/
theorem tokenization_counterexample :
    clean_command ((pySplitWS ("G1\tX5".toList)).headD []) = "G1".toList ∧
    extract_command ("G1\tX5".toList) = "G1\tX5".toList ∧
    "G1\tX5".toList ≠ "G1".toList := by
  refine ⟨by decide, by decide, by decide⟩

/-- C4 (code-bug evaluation): registering a handler for the empty
string raises IndexError (from `command[0]`), not the ValueError the
docstring ("Raises ValueError: If the command does not start with
either 'M' or 'G'") and the spec promise; a non-empty command with a
bad family tag does raise ValueError.  In both error paths no entry is
added to the registry. -/
theorem register_callback_empty_indexError :
    register_callback [] ("".toList) = .error .indexError ∧
    (Except.error .indexError : Except PyErr (List (List Char))) ≠
      .error .valueError ∧
    register_callback [] ("X1".toList) = .error .valueError := by
  refine ⟨rfl, ?_, rfl⟩
  intro h
  exact absurd (Except.error.inj h) (by decide)

theorem mm_radians_roundtrip (pi r : ℚ) (hpi : pi ≠ 0) :
    mm_to_radians pi (radians_to_mm pi r) = r := by
  unfold mm_to_radians radians_to_mm LEAD_MM
  field_simp
  ring

/-- C3 (amended): `handle_G1` rejects the whole command without
mutating either axis-group target when any provided numeric value fails
to parse; `update_target` instead applies values in token order and
stops at the first failure, so a line whose first value parses but
whose second does not mutates the X target (leaving Y unchanged), while
a line whose first value fails to parse leaves both unchanged. -/
theorem invalid_target_rejection
    (parse : List Char → Option ℚ) (pi : ℚ) (st : Targets) :
    (∀ py s, parse s = none →
        handle_G1 parse pi (some s) py st = (st, true)) ∧
    (∀ px s, parse s = none →
        handle_G1 parse pi px (some s) st = (st, true)) ∧
    (∀ line t0 rest, pySplitWS line = t0 :: rest → parse t0 = none →
        update_target parse pi line st = st) ∧
    (∀ line t0 t1 rest m1, pySplitWS line = t0 :: t1 :: rest →
        parse t0 = some m1 → parse t1 = none →
        update_target parse pi line st = { st with x := mm_to_radians pi m1 }) := by
  refine ⟨?_, ?_, ?_, ?_⟩
  · intro py s hs
    simp [handle_G1, hs]
  · intro px s hs
    cases px with
    | none => simp [handle_G1, hs]
    | some u =>
      cases hu : parse u with
      | none => simp [handle_G1, hu]
      | some m => simp [handle_G1, hu, hs]
  · intro line t0 rest hsp h0
    cases rest with
    | nil => simp [update_target, hsp, h0]
    | cons t1 r => simp [update_target, hsp, h0]
  · intro line t0 t1 rest m1 hsp h0 h1
    simp [update_target, hsp, h0, h1]

/-- Witness for `invalid_target_rejection`: with the concrete parse
double `parseEx` below, `handle_G1` with an unparsable X value returns
the pre-state, and `update_target` on `"5 abc"` stops after X. -/
theorem invalid_target_rejection_witness :
    handle_G1 (fun t => if t = ['5'] then some 5 else none) 3
      (some ("abc".toList)) none ⟨1, 2⟩ = (⟨1, 2⟩, true) :=
  (invalid_target_rejection (fun t => if t = ['5'] then some 5 else none)
    3 ⟨1, 2⟩).1 none ("abc".toList) (by decide)

/-- C3 counterexample: on the line `"5 abc"` (first target valid,
second invalid), `update_target` does not leave the target state
unchanged — the X target is already mutated when the ValueError on
`"abc"` is caught (`pi` stands in for `math.pi`; the mutation occurs
for any value of it). -/
theorem update_target_counterexample :
    (update_target parseEx 3 ("5 abc".toList) ⟨1, 2⟩).x = 15/4 ∧
    (update_target parseEx 3 ("5 abc".toList) ⟨1, 2⟩).y = 2 ∧
    (15/4 : ℚ) ≠ 1 := by
  have hsp : pySplitWS ['5', ' ', 'a', 'b', 'c'] = [['5'], ['a', 'b', 'c']] := by
    decide
  have h0 : parseEx ['5'] = some 5 := by simp [parseEx]
  have h1 : parseEx ['a', 'b', 'c'] = none := by simp [parseEx]
  refine ⟨?_, ?_, by norm_num⟩
  · simp [update_target, hsp, h0, h1, mm_to_radians, LEAD_MM]
    norm_num
  · simp [update_target, hsp, h0, h1]

/-- C9: a `G1` dispatch whose parameter set omits the X key leaves the
X axis-group target unchanged after the handler returns (the omitted
axis's default is the current target converted radians-to-millimeters
and fed back through `mm_to_radians`), and symmetrically for Y; when
only Y is supplied (and parses), exactly the Y target changes. -/
theorem g1_omitted_axis_unchanged (parse : List Char → Option ℚ) (pi : ℚ)
    (hpi : pi ≠ 0) (st : Targets) :
    (∀ py, (handle_G1 parse pi none py st).1.x = st.x) ∧
    (∀ px, (handle_G1 parse pi px none st).1.y = st.y) ∧
    (∀ v m, parse v = some m →
      (handle_G1 parse pi none (some v) st).1 =
        ⟨st.x, mm_to_radians pi m⟩) := by
  refine ⟨?_, ?_, ?_⟩
  · intro py
    cases py with
    | none => simp [handle_G1, mm_radians_roundtrip pi st.x hpi]
    | some s =>
      cases hs : parse s with
      | none => simp [handle_G1, hs]
      | some m => simp [handle_G1, hs, mm_radians_roundtrip pi st.x hpi]
  · intro px
    cases px with
    | none => simp [handle_G1, mm_radians_roundtrip pi st.y hpi]
    | some s =>
      cases hs : parse s with
      | none => simp [handle_G1, hs]
      | some m => simp [handle_G1, hs, mm_radians_roundtrip pi st.y hpi]
  · intro v m hv
    simp [handle_G1, hv, mm_radians_roundtrip pi st.x hpi]

/-- Witness for `g1_omitted_axis_unchanged` at a concrete state and
parse double: omitting both keys moves neither target. -/
theorem g1_omitted_axis_unchanged_witness :
    (handle_G1 parseEx 3 none none ⟨1, 2⟩).1.x = (1 : ℚ) :=
  (g1_omitted_axis_unchanged parseEx 3 (by norm_num) ⟨1, 2⟩).1 none

/-- C2: in the control loop that configures a dead-band
(manual_gantry_control.py: threshold 0.5, `Kp = 5` for both axis
groups), every tick's command on every physical axis equals 0 when the
absolute position error is strictly below the threshold and `Kp` times
the error otherwise; the comparison is strict `<`, so an error of
magnitude exactly 0.5 yields the proportional command; error 0.3 gives
command 0 and error 1.0 gives command 5.0. -/
theorem deadband_proportional_law :
    (∀ tX tY c1 c2 c3 : ℚ,
      manualTick tX tY c1 c2 c3 =
        ⟨if |tX - c1| < 1/2 then 0 else Kp_pos * (tX - c1),
         if |tX - c2| < 1/2 then 0 else Kp_pos * (tX - c2),
         if |tY - c3| < 1/2 then 0 else Kp_pos_Y * (tY - c3)⟩) ∧
    (∀ e : ℚ, |e| = 1/2 → (manualTick e 0 0 0 0).v1 = Kp_pos * e) ∧
    (manualTick (3/10) 0 0 0 0).v1 = 0 ∧
    (manualTick 1 0 0 0 0).v1 = 5 := by
  refine ⟨?_, ?_, ?_, ?_⟩
  · intro tX tY c1 c2 c3
    simp only [manualTick, deadband, mul_ite, mul_zero]
  · intro e he
    simp [manualTick, deadband, he]
  · have h : |((3:ℚ)/10 - 0)| < 1/2 := by
      rw [sub_zero, abs_of_pos (by norm_num : (0:ℚ) < 3/10)]
      norm_num
    show Kp_pos * deadband ((3:ℚ)/10 - 0) = 0
    rw [deadband, if_pos h, mul_zero]
  · have h : ¬ |((1:ℚ) - 0)| < 1/2 := by
      rw [sub_zero, abs_of_pos (by norm_num : (0:ℚ) < 1)]
      norm_num
    show Kp_pos * deadband ((1:ℚ) - 0) = 5
    rw [deadband, if_neg h, Kp_pos]
    norm_num

/-- Witness for the boundary conjunct of `deadband_proportional_law`:
an error of exactly 0.5 rad produces the non-zero proportional
command. -/
theorem deadband_proportional_law_witness :
    (manualTick (1/2) 0 0 0 0).v1 = Kp_pos * (1/2) :=
  deadband_proportional_law.2.1 (1/2)
    (by rw [abs_of_pos (by norm_num : (0:ℚ) < 1/2)])

/-- Startup behavior that manual_gantry_control.py (and the 01/02/03
scripts) implement: with the targets set to the recorded reference
positions and the motors still at those positions, the first tick
commands no motion. -/
theorem manual_startup_no_motion (r1 r3 : ℚ) :
    manualTick r1 r3 r1 r1 r3 = ⟨0, 0, 0⟩ := by
  simp [manualTick, deadband]

/-- C1 (code-bug evaluation): in main.py, `init_motors` zeroes the
velocity commands, sleeps 2 s and records the measured positions, but
nothing assigns them to `pos_target_X`/`pos_target_Y`, which keep
their initial value 0 — `control_loop` receives `initial_positions`
and never uses it.  With the recorded reference at 1 rad on each axis,
the first control tick therefore commands velocity −5 on every motor
instead of the 0 the claim requires, and the initial target differs
from the recorded reference. -/
theorem startup_first_tick_moves :
    mainTick mainInitialTargets.x mainInitialTargets.y 1 1 1 = ⟨-5, -5, -5⟩ ∧
    (⟨-5, -5, -5⟩ : VelCmds) ≠ ⟨0, 0, 0⟩ ∧
    mainInitialTargets.x ≠ (1 : ℚ) := by
  refine ⟨?_, ?_, ?_⟩
  · norm_num [mainTick, mainInitialTargets, Kp_pos, Kp_pos_Y]
  · intro h
    rw [VelCmds.mk.injEq] at h
    norm_num at h
  · norm_num [mainInitialTargets]

/-- C7: for the M150 handler on the 8-element strip: a P index of 0
broadcasts one color to every staged element; an index 1 ≤ P ≤ 7 sets
exactly the staged element P−1 (all other positions unchanged); any
other index (negative or ≥ 8) produces the warning and leaves the
strip entirely unchanged; and a non-numeric value for any of the five
parameters P, R, G, B, I is replaced by its documented default with a
warning instead of raising — the handler is total and returns the same
strip it would for that key absent (whose `params.get` default equals
the substituted one: 0 for P/R/G/B, 1.0 for I); in particular an
unparsable P defaults to 0 and therefore broadcasts. -/
theorem m150_index_and_defaults
    (parseI : List Char → Option ℤ) (parseF : List Char → Option ℚ)
    (pP pR pG pB pI : Option (List Char)) (pixels : PixelStrip) :
    (∀ s, pP = some s → parseI s = some 0 →
      ∃ c, (handle_M150 parseI parseF pP pR pG pB pI pixels).1.staged =
        List.replicate pixels.staged.length c) ∧
    (∀ s i, pP = some s → parseI s = some i → 1 ≤ i → i < 8 →
      ∃ c, (handle_M150 parseI parseF pP pR pG pB pI pixels).1.staged =
          pixels.staged.set (i - 1).toNat c ∧
        ∀ j : ℕ, j ≠ (i - 1).toNat →
          (handle_M150 parseI parseF pP pR pG pB pI pixels).1.staged[j]? =
            pixels.staged[j]?) ∧
    (∀ s i, pP = some s → parseI s = some i → i < 0 ∨ 8 ≤ i →
      (handle_M150 parseI parseF pP pR pG pB pI pixels).1 = pixels ∧
      (handle_M150 parseI parseF pP pR pG pB pI pixels).2 = true) ∧
    (∀ s, pP = some s → parseI s = none →
      (handle_M150 parseI parseF pP pR pG pB pI pixels).2 = true ∧
      (handle_M150 parseI parseF pP pR pG pB pI pixels).1 =
        (handle_M150 parseI parseF none pR pG pB pI pixels).1 ∧
      ∃ c, (handle_M150 parseI parseF pP pR pG pB pI pixels).1.staged =
        List.replicate pixels.staged.length c) ∧
    (∀ s, pR = some s → parseI s = none →
      (handle_M150 parseI parseF pP pR pG pB pI pixels).2 = true ∧
      (handle_M150 parseI parseF pP pR pG pB pI pixels).1 =
        (handle_M150 parseI parseF pP none pG pB pI pixels).1) ∧
    (∀ s, pG = some s → parseI s = none →
      (handle_M150 parseI parseF pP pR pG pB pI pixels).2 = true ∧
      (handle_M150 parseI parseF pP pR pG pB pI pixels).1 =
        (handle_M150 parseI parseF pP pR none pB pI pixels).1) ∧
    (∀ s, pB = some s → parseI s = none →
      (handle_M150 parseI parseF pP pR pG pB pI pixels).2 = true ∧
      (handle_M150 parseI parseF pP pR pG pB pI pixels).1 =
        (handle_M150 parseI parseF pP pR pG none pI pixels).1) ∧
    (∀ s, pI = some s → parseF s = none →
      (handle_M150 parseI parseF pP pR pG pB pI pixels).2 = true ∧
      (handle_M150 parseI parseF pP pR pG pB pI pixels).1 =
        (handle_M150 parseI parseF pP pR pG pB none pixels).1) := by
  refine ⟨?_, ?_, ?_, ?_, ?_, ?_, ?_, ?_⟩
  · intro s hp hs
    simp [handle_M150, safe_int, hp, hs, pixelFill]
  · intro s i hp hs h1 h8
    have hne : i ≠ 0 := by omega
    simp only [handle_M150, safe_int, hp, hs, if_neg hne, if_pos (⟨h1, h8⟩ : 1 ≤ i ∧ i < 8)]
    refine ⟨_, rfl, ?_⟩
    intro j hj
    have ht : (i - 1).toNat = i.toNat - 1 := by omega
    rw [ht] at hj
    simp [pixelSet, List.getElem?_set_ne (Ne.symm hj)]
  · intro s i hp hs hout
    have hne : i ≠ 0 := by omega
    have hno : ¬(1 ≤ i ∧ i < 8) := by omega
    constructor <;>
      simp only [handle_M150, safe_int, hp, hs, if_neg hne, if_neg hno]
  · intro s hp hs
    refine ⟨?_, ?_, ?_⟩
    · simp [handle_M150, safe_int, hp, hs]
    · simp [handle_M150, safe_int, hp, hs]
    · simp [handle_M150, safe_int, hp, hs, pixelFill]
  · intro s hr hs
    constructor
    · simp only [handle_M150, safe_int, hr, hs]
      split_ifs <;> simp
    · simp only [handle_M150, safe_int, hr, hs]
      split_ifs <;> rfl
  · intro s hg hs
    constructor
    · simp only [handle_M150, safe_int, hg, hs]
      split_ifs <;> simp
    · simp only [handle_M150, safe_int, hg, hs]
      split_ifs <;> rfl
  · intro s hb hs
    constructor
    · simp only [handle_M150, safe_int, hb, hs]
      split_ifs <;> simp
    · simp only [handle_M150, safe_int, hb, hs]
      split_ifs <;> rfl
  · intro s hi hs
    constructor
    · simp only [handle_M150, safe_float, hi, hs]
      split_ifs <;> simp
    · simp only [handle_M150, safe_float, hi, hs]
      split_ifs <;> rfl

/-- Witness for `m150_index_and_defaults`: on a concrete 8-LED strip,
index 3 stages exactly element 2, and an unparsable R value warns and
matches the absent-R outcome. -/
theorem m150_index_and_defaults_witness :
    (∃ c, (handle_M150 (fun t => if t = ['3'] then some 3 else none)
        (fun _ => none) (some ['3']) none none none none
        (setup_pixels 8)).1.staged =
      (setup_pixels 8).staged.set 2 c ∧
      ∀ j : ℕ, j ≠ 2 →
        (handle_M150 (fun t => if t = ['3'] then some 3 else none)
          (fun _ => none) (some ['3']) none none none none
          (setup_pixels 8)).1.staged[j]? = (setup_pixels 8).staged[j]?) :=
  (m150_index_and_defaults (fun t => if t = ['3'] then some 3 else none)
    (fun _ => none) (some ['3']) none none none none (setup_pixels 8)).2.1
    ['3'] 3 rfl (by simp) (by norm_num) (by norm_num)

/-- C10: the pixel array is constructed with auto-commit disabled
(`setup_pixels` passes `auto_write=False`) and `handle_M150` only
stages color writes, never invoking the batch-commit `show()`; on any
strip whose auto-commit is off, processing any M150 command leaves the
committed, visible LED state unchanged. -/
theorem m150_committed_unchanged :
    (∀ n, (setup_pixels n).autoWrite = false) ∧
    (∀ parseI parseF pP pR pG pB pI pixels, pixels.autoWrite = false →
      (handle_M150 parseI parseF pP pR pG pB pI pixels).1.committed =
        pixels.committed) := by
  refine ⟨fun n => rfl, ?_⟩
  intro parseI parseF pP pR pG pB pI pixels h
  simp only [handle_M150]
  split_ifs <;> simp [pixelFill, pixelSet, h]

/-- Witness for `m150_committed_unchanged`: a concrete broadcast M150
on the freshly constructed 8-LED strip leaves the visible state
unchanged. -/
theorem m150_committed_unchanged_witness :
    (handle_M150 (fun _ => some 0) (fun _ => some 1) (some ['0'])
      (some ['9']) none none none (setup_pixels 8)).1.committed =
      (setup_pixels 8).committed :=
  m150_committed_unchanged.2 (fun _ => some 0) (fun _ => some 1)
    (some ['0']) (some ['9']) none none none (setup_pixels 8) rfl

/-- C8 (amended): under main.py's discipline — every `handle_G1`
writer updates both axis-group targets and the control-loop reader
snapshots both inside a single `pos_lock` critical section — any
interleaving of any number of writes with reads yields only snapshots
whose two values come from one logical write (equal write tags),
provided the initial pair is itself from one write.  (In
03_three_motor.py, which takes no lock, this fails: see the unlocked
counterexample.) -/
theorem locked_snapshots_consistent (init : TStore)
    (hinit : init.xid = init.yid) (tr : List LockedOp) :
    ∀ p ∈ lockedRun init tr, p.1 = p.2 := by
  induction tr generalizing init with
  | nil => simp [lockedRun]
  | cons op rest ih =>
    cases op with
    | write w x y =>
      simp only [lockedRun, lockedStep]
      exact ih _ rfl
    | read =>
      simp only [lockedRun, lockedStep]
      intro p hp
      rcases List.mem_cons.mp hp with h | h
      · subst h; exact hinit
      · exact ih init hinit p h

/-- Witness for `locked_snapshots_consistent`: the snapshot taken after
the concrete write labelled 1 pairs that write with itself. -/
theorem locked_snapshots_consistent_witness :
    ((1 : ℕ), (1 : ℕ)).1 = ((1 : ℕ), (1 : ℕ)).2 :=
  locked_snapshots_consistent ⟨0, 0, 0, 0⟩ rfl
    [.write 1 5 6, .read] (1, 1)
    (by simp [lockedRun, lockedStep])

/-- C8 counterexample: with the unlocked accesses of
03_three_motor.py, the reader can run between a writer's X and Y
assignments.  Concretely: command 1 writes (10, 11); command 2 writes
X := 20, then the reader reads X and Y, then command 2 writes Y := 21.
The reader's snapshot pairs X from write 2 with Y from write 1 —
values from two different logical commands. -/
theorem unlocked_mixed_snapshot :
    unlockedRun (⟨0, 0, 0, 0⟩, none)
      [.writeX 1 10, .writeY 1 11, .writeX 2 20,
       .readX, .readY, .writeY 2 21] = [(2, 1)] ∧
    (2 : ℕ) ≠ (1 : ℕ) := by
  exact ⟨rfl, by decide⟩

end Gantry

